import Mathlib

/-!
Verification of the `LLMHelper` core of the free-cluely repository
(`src/electron/LLMHelper.ts`) against its natural-language specification.

JavaScript strings are modelled as `List Char` (named `JSStr`).  External
platform and library functions (`fetch`, `axios`, `fs`, `JSON.parse`, the
Kontext SDK) are modelled by explicit oracle values passed as arguments:
every observable outcome the repository code branches on is a field of an
environment structure, so the translated control flow is exactly the
source's control flow.
-/

set_option autoImplicit false

namespace FreeCluely

/-- JavaScript strings, modelled as lists of characters. -/
abbrev JSStr := List Char

/-- `p` is a prefix of `s` (models JS `String.prototype.startsWith`). -/
def strStarts : JSStr → JSStr → Bool
  | [], _ => true
  | _ :: _, [] => false
  | p :: ps, c :: cs => p == c && strStarts ps cs

/-- `suf` is a suffix of `s` (models the `$`-anchored part of a JS regex). -/
def strEnds (suf s : JSStr) : Bool :=
  strStarts suf.reverse s.reverse

/-- `pat` occurs as a contiguous substring of `s`. -/
def containsSeq (pat : JSStr) : JSStr → Bool
  | [] => strStarts pat []
  | c :: cs => strStarts pat (c :: cs) || containsSeq pat cs

/-- Splits a string at every `'\n'`, exactly like JS `s.split('\n')`:
`"a\nb" ↦ ["a","b"]`, `"" ↦ [""]`, `"a\n" ↦ ["a",""]`. -/
def splitOnNl : JSStr → List JSStr
  | [] => [[]]
  | c :: cs =>
    if c = '\n' then [] :: splitOnNl cs
    else
      match splitOnNl cs with
      | l :: ls => (c :: l) :: ls
      | [] => [[c]]

/-- A line whose `trim()` is empty, i.e. every character is whitespace. -/
def isBlankLine (l : JSStr) : Bool := l.all Char.isWhitespace

/-- Models JS `String.prototype.trim`: strips whitespace from both ends. -/
def trimJS (s : JSStr) : JSStr :=
  ((s.dropWhile Char.isWhitespace).reverse.dropWhile Char.isWhitespace).reverse

/-! ### Stream decoder of `callOpenAI` (LLMHelper.ts lines 130-165)

The reader loop of `callOpenAI` receives the response body as a sequence of
reads (`chunks`).  Each read is split on `'\n'`, blank lines are dropped,
each line prefixed `data: ` is sliced after the prefix; the `[DONE]`
sentinel is skipped (`continue`); every other payload is given to
`JSON.parse` followed by the `choices?.[0]?.delta?.content` optional chain.
That composite platform call is modelled by the oracle
`parse : JSStr → Option JSStr`, where `none` means `JSON.parse` threw or
the chain produced `undefined`/`null`, and `some c` means it produced the
string `c`; the JS truthiness test `if (content)` additionally rejects the
empty string, kept explicitly below.  The decoder's observable output is
the list of emitted text deltas: `fullContent` is their concatenation and
the caller-supplied `onChunk` callback is invoked once per element. -/

/-- The 6-character line prefix `"data: "`. -/
def dataPfx : JSStr := 'd' :: 'a' :: 't' :: 'a' :: ':' :: ' ' :: []

/-- The stream-end sentinel payload `"[DONE]"`. -/
def doneTok : JSStr := '[' :: 'D' :: 'O' :: 'N' :: 'E' :: ']' :: []

/-- One iteration of the `for (const line of lines)` body of `callOpenAI`:
given the deltas emitted so far, processes one line. -/
def procLine (parse : JSStr → Option JSStr) (out : List JSStr) (line : JSStr) :
    List JSStr :=
  if strStarts dataPfx line then
    let data := line.drop 6
    if data = doneTok then out
    else
      match parse data with
      | some content => if content = [] then out else out ++ [content]
      | none => out
  else out

/-- `chunk.split('\n').filter(line => line.trim() !== '')`. -/
def chunkLinesJS (chunk : JSStr) : List JSStr :=
  (splitOnNl chunk).filter (fun l => !(isBlankLine l))

/-- Processing of one read of the response body. -/
def procChunk (parse : JSStr → Option JSStr) (out : List JSStr) (chunk : JSStr) :
    List JSStr :=
  (chunkLinesJS chunk).foldl (procLine parse) out

/-- The whole reader loop of `callOpenAI`: the response body arrives as the
reads `chunks`; returns the list of emitted text deltas (the accumulated
`fullContent` is their concatenation, and `onChunk` fires once per element). -/
def callOpenAIDecode (parse : JSStr → Option JSStr) (chunks : List JSStr) :
    List JSStr :=
  chunks.foldl (procChunk parse) []

/-- The accumulated `fullContent` returned by `callOpenAI`. -/
def callOpenAIFull (parse : JSStr → Option JSStr) (chunks : List JSStr) : JSStr :=
  (callOpenAIDecode parse chunks).flatten

/-- A concrete JSON payload: the text
`{"choices":[{"delta":{"content":"Hi"}}]}` (the scenario frame from the
spec, section 8). -/
def payloadHi : JSStr :=
  "\x7b\"choices\":[\x7b\"delta\":\x7b\"content\":\"Hi\"\x7d\x7d]\x7d".toList

/-- Oracle for the platform composite `JSON.parse` +
`choices?.[0]?.delta?.content` on the concrete payloads used in closed
evaluations: on `payloadHi` it yields `"Hi"` (as the spec's section-8
scenario records), on every other payload it behaves as a parse failure. -/
def jsonContent0 : JSStr → Option JSStr :=
  fun s => if s = payloadHi then some ('H' :: 'i' :: []) else none

/-- `endsWithNl s` holds when the last character of `s` is `'\n'`. -/
def endsWithNl : JSStr → Bool
  | [] => false
  | [c] => c = '\n'
  | _ :: c :: cs => endsWithNl (c :: cs)

/-- `startsWithNl s` holds when the first character of `s` is `'\n'`. -/
def startsWithNl : JSStr → Bool
  | [] => false
  | c :: _ => c = '\n'

/-- Every boundary between consecutive reads is adjacent to a line break:
the earlier read ends with `'\n'` or the later read starts with `'\n'`
(so no line of the body is split across a read boundary). -/
def alignedChunks : List JSStr → Bool
  | [] => true
  | [_] => true
  | c :: c' :: cs => (endsWithNl c || startsWithNl c') && alignedChunks (c' :: cs)

/-! ### `cleanJsonResponse` (LLMHelper.ts lines 69-75)

`text.replace(/^```(?:json)?\n/, '').replace(/\n```$/, '').trim()`.
The first regex is anchored at the start and, thanks to the greedy
optional group, removes `"```json\n"` when present, else `"```\n"` when
present, else nothing.  The second regex is anchored at the end and
removes a final `"\n```"` when present. -/

/-- The characters of `"```"`. -/
def fence3 : JSStr := '`' :: '`' :: '`' :: []

/-- The characters of the opening fence `"```json\n"`. -/
def fenceJsonPfx : JSStr := '`' :: '`' :: '`' :: 'j' :: 's' :: 'o' :: 'n' :: '\n' :: []

/-- The characters of the opening fence `"```\n"`. -/
def fencePfx : JSStr := '`' :: '`' :: '`' :: '\n' :: []

/-- The characters of the closing fence `"\n```"`. -/
def fenceSuf : JSStr := '\n' :: '`' :: '`' :: '`' :: []

/-- `cleanJsonResponse` from the source: strip an optional leading markdown
fence, strip an optional trailing fence, then trim. -/
def cleanJsonResponse (s : JSStr) : JSStr :=
  let s1 :=
    if strStarts fenceJsonPfx s then s.drop fenceJsonPfx.length
    else if strStarts fencePfx s then s.drop fencePfx.length
    else s
  let s2 :=
    if strEnds fenceSuf s1 then s1.take (s1.length - fenceSuf.length)
    else s1
  trimJS s2

/-- `s` contains a markdown code fence (the substring "```") somewhere. -/
def hasFence (s : JSStr) : Bool := containsSeq fence3 s

/-- A JSON-mode response wrapped in a markdown code fence: the opening
fence (with or without the `json` language tag) plus the payload plus the
closing fence. -/
def fenceWrap (jsonTag : Bool) (j : JSStr) : JSStr :=
  (if jsonTag then fenceJsonPfx else fencePfx) ++ j ++ fenceSuf

/-! ### Provider state of `LLMHelper`

The mutable fields of the class (LLMHelper.ts lines 20-30).  The Gemini
SDK handle `this.model` is modelled by whether it is non-null.  Optional
string parameters of the constructor and switches are modelled as plain
strings with `""` for `undefined`: every use in the source goes through
JS truthiness (`x || default`, `if (x)`), under which `undefined` and
`""` are indistinguishable. -/

structure HelperState where
  hasModel : Bool
  useOllama : Bool
  useOpenAI : Bool
  ollamaModel : String
  ollamaUrl : String
  openaiApiKey : String
  openaiModel : String
deriving DecidableEq

/-- Network oracle for the Ollama-side calls made during model
auto-detection: `tags` and `tags2` are the results of the first and second
`getOllamaModels()` call (that method catches internally and yields `[]`
on any transport failure), `helloOk m` says whether the probe
`callOllama("Hello")` with model `m` resolves without throwing. -/
structure OllamaEnv where
  tags : List String
  tags2 : List String
  helloOk : String → Bool

/-- `getOllamaModels` (lines 779-792): returns `[]` unless Ollama mode is
active, otherwise the fetched tag list (transport failures already
collapsed to `[]` by its internal catch). -/
def getOllamaModels (tags : List String) (st : HelperState) : List String :=
  if st.useOllama then tags else []

/-- `initializeOllamaModel` (lines 235-265): fetch available models; if
none, keep everything; else substitute the first available model when the
configured one is absent, then probe the model with `callOllama("Hello")`;
if the probe throws, fall back to the first model of a second fetch. -/
def initializeOllamaModel (env : OllamaEnv) (st : HelperState) : HelperState :=
  let availableModels := getOllamaModels env.tags st
  if availableModels.isEmpty then st
  else
    let st1 :=
      if st.ollamaModel ∈ availableModels then st
      else { st with ollamaModel := availableModels.headD "" }
    if env.helloOk st1.ollamaModel then st1
    else
      let models := getOllamaModels env.tags2 st1
      if models.isEmpty then st1
      else { st1 with ollamaModel := models.headD "" }

/-- The `LLMHelper` constructor (lines 32-57).  Throws (`Except.error`)
when OpenAI mode is selected without an API key, and when neither a mode
flag nor a Gemini key is given.  In Ollama mode the asynchronous
`initializeOllamaModel()` call is folded in (its completed effect on the
state). -/
def construct (env : OllamaEnv) (apiKey : String) (useOllama : Bool)
    (ollamaModel ollamaUrl : String) (useOpenAI : Bool) (openaiModel : String) :
    Except String HelperState :=
  let st0 : HelperState :=
    { hasModel := false, useOllama := useOllama, useOpenAI := useOpenAI,
      ollamaModel := "llama3.2", ollamaUrl := "http://localhost:11434",
      openaiApiKey := "", openaiModel := "gpt-4o" }
  if useOpenAI then
    let st1 := { st0 with
      openaiApiKey := apiKey,
      openaiModel := if openaiModel = "" then "gpt-4o" else openaiModel }
    if st1.openaiApiKey = "" then
      .error "OpenAI API key is required when useOpenAI is true"
    else .ok st1
  else if useOllama then
    let st1 := { st0 with
      ollamaUrl := if ollamaUrl = "" then "http://localhost:11434" else ollamaUrl,
      ollamaModel := if ollamaModel = "" then "gemma:latest" else ollamaModel }
    .ok (initializeOllamaModel env st1)
  else if apiKey ≠ "" then
    .ok { st0 with hasModel := true }
  else
    .error "Either provide Gemini API key or enable Ollama mode"

/-- `switchToOllama` (lines 804-816): sets `useOllama`, optionally updates
the URL, and either installs the given model or auto-detects one.  Note:
the source never clears `useOpenAI` here. -/
def switchToOllama (env : OllamaEnv) (st : HelperState) (model url : String) :
    HelperState :=
  let st1 := { st with useOllama := true }
  let st2 := if url ≠ "" then { st1 with ollamaUrl := url } else st1
  if model ≠ "" then { st2 with ollamaModel := model }
  else initializeOllamaModel env st2

/-- `switchToGemini` (lines 818-831): installs a fresh model handle when a
key is given; throws when no key is given and no handle exists; then
clears both mode flags. -/
def switchToGemini (st : HelperState) (apiKey : String) :
    Except String HelperState :=
  let st1 := if apiKey ≠ "" then { st with hasModel := true } else st
  if st1.hasModel = false ∧ apiKey = "" then
    .error "No Gemini API key provided and no existing model instance"
  else
    .ok { st1 with useOllama := false, useOpenAI := false }

/-- `switchToOpenAI` (lines 833-839): stores the key and model (defaulting
the model), sets `useOpenAI`, clears `useOllama`.  No validation of the
key. -/
def switchToOpenAI (st : HelperState) (apiKey model : String) : HelperState :=
  { st with
    openaiApiKey := apiKey,
    openaiModel := if model = "" then "gpt-4o" else model,
    useOpenAI := true,
    useOllama := false }

/-- `getCurrentProvider` (lines 794-797). -/
def getCurrentProvider (st : HelperState) : String :=
  if st.useOpenAI then "openai"
  else if st.useOllama then "ollama" else "gemini"

/-- `getCurrentModel` (lines 799-802). -/
def getCurrentModel (st : HelperState) : String :=
  if st.useOpenAI then st.openaiModel
  else if st.useOllama then st.ollamaModel else "gemini-2.0-flash"

/-- One provider-switch call, with the network oracle for a possible
auto-detection attached to the Ollama variant. -/
inductive SwitchOp where
  | toOllama (model url : String) (env : OllamaEnv)
  | toGemini (apiKey : String)
  | toOpenAI (apiKey model : String)

/-- Applies one switch call to the instance state.  A throwing
`switchToGemini` leaves the state unchanged (the source throws before any
mutation). -/
def applyOp (st : HelperState) : SwitchOp → HelperState
  | .toOllama model url env => switchToOllama env st model url
  | .toGemini apiKey =>
    match switchToGemini st apiKey with
    | .ok st' => st'
    | .error _ => st
  | .toOpenAI apiKey model => switchToOpenAI st apiKey model

/-! ### `analyzeImageFile` (lines 696-733)

The dispatch structure of `analyzeImageFile`: with `useOpenAI` it sends
the image to the OpenAI vision API; otherwise it always takes the
Gemini branch (`this.model.generateContent`), which succeeds as a Gemini
call when a model handle exists and otherwise throws a JS `TypeError`
for dereferencing the null `this.model`.  No branch of the source
constructs a typed unsupported-operation failure. -/

/-- The possible exits of `analyzeImageFile`, one per source path. -/
inductive ImageCall where
  | openaiVision
  | geminiVision
  | nullModelError
deriving DecidableEq

/-- Which exit `analyzeImageFile` takes from a given provider state. -/
def analyzeImageFile (st : HelperState) : ImageCall :=
  if st.useOpenAI then .openaiVision
  else if st.hasModel then .geminiVision
  else .nullModelError

/-! ### Context retrieval (lines 353-566)

`fetchContext` dispatches on the `USE_KONTEXT` environment flag to one of
two backend bindings.  Each binding's whole body sits in one `try` whose
`catch` returns `''`; the only throwing operations inside are the network
call (`axios.post` / the Kontext SDK query), modelled by a `NetResult`
oracle.  Both bindings first return `''` when their credentials are
unset.  Floating-point score formatting (`toFixed`) is outside the model:
the oracle carries the already-formatted strings the rendering
interpolates. -/

/-- Outcome of an external network/SDK call: a parsed value, or a thrown
transport/parsing error. -/
inductive NetResult (α : Type) where
  | ok (v : α)
  | fail
deriving DecidableEq

/-- One object of the Weaviate GraphQL result
(`response.data?.data?.Get?.[collection]` element).  Fields the rendering
tests for truthiness are `Option`s (`none` for absent or falsy);
`distanceStr` is `_additional?.distance?.toFixed(4)` (`none` renders as
the JS string `"undefined"`), `annualSpend` is pre-interpolated. -/
structure WeaviateObj where
  distanceStr : Option String
  name : Option String
  category : Option String
  supplierId : Option String
  annualSpend : Option String
  content : Option String
deriving DecidableEq

/-- Environment of `fetchWeaviateContext`: the two credential variables
(`""` for unset) and the outcome of the GraphQL post, already projected to
`response.data?.data?.Get?.[collectionName]`. -/
structure WeaviateEnv where
  url : String
  key : String
  post : NetResult (Option (List WeaviateObj))
deriving DecidableEq

/-- Rendering of one Weaviate result into its text block (lines 409-418). -/
def renderWeaviateObj (idx : Nat) (o : WeaviateObj) : String :=
  let parts : List String :=
    ["[Result " ++ toString (idx + 1) ++ " - Distance: "
        ++ o.distanceStr.getD "undefined" ++ "]"]
    ++ (match o.name with | some n => ["Supplier: " ++ n] | none => [])
    ++ (match o.category with | some c => ["Category: " ++ c] | none => [])
    ++ (match o.supplierId with | some i => ["ID: " ++ i] | none => [])
    ++ (match o.annualSpend with | some a => ["Annual Spend: $" ++ a] | none => [])
    ++ (match o.content with | some d => ["Details: " ++ d] | none => [])
  String.intercalate "\n" parts

/-- `results.map(...).filter(Boolean).join('\n\n')` (lines 408-420). -/
def renderWeaviateObjs (results : List WeaviateObj) : String :=
  String.intercalate "\n\n"
    ((results.mapIdx renderWeaviateObj).filter (fun s => s ≠ ""))

/-- The `try` body of `fetchWeaviateContext` (lines 354-427): `.error`
marks a thrown exception reaching the `catch`. -/
def fetchWeaviateTry (env : WeaviateEnv) : Except Unit String :=
  if env.url = "" ∨ env.key = "" then .ok ""
  else
    match env.post with
    | .fail => .error ()
    | .ok resultsOpt =>
      match resultsOpt with
      | some results =>
        if results.length > 0 then .ok (renderWeaviateObjs results) else .ok ""
      | none => .ok ""

/-- `fetchWeaviateContext` (lines 353-435): the `catch` converts any
thrown error into `''`. -/
def fetchWeaviateContext (env : WeaviateEnv) : String :=
  match fetchWeaviateTry env with
  | .ok s => s
  | .error _ => ""

/-- One Kontext vault hit.  `textAttr`/`contentAttr`/`snippetAttr` model
`hit.attributes?.text` / `.content` / `.snippet` (`none` for absent or
falsy), `attributesJson` the `JSON.stringify(hit.attributes)` fallback,
`scorePct` the pre-formatted `(hit.score * 100).toFixed(1)` with `none`
when `hit.score` is falsy. -/
structure KontextHit where
  textAttr : Option String
  contentAttr : Option String
  snippetAttr : Option String
  attributesJson : String
  fileName : Option String
  scorePct : Option String
deriving DecidableEq

/-- The Kontext vault query result: the optional AI answer text and the
optional hit list. -/
structure KontextVaultResult where
  answerText : Option String
  hits : Option (List KontextHit)
deriving DecidableEq

/-- Environment of `fetchKontextContext`: the API key (`""` for unset)
and the outcome of `kontext.vault.query` (any throw inside the `try`,
including SDK construction, is `.fail`). -/
structure KontextEnv where
  apiKey : String
  query : NetResult KontextVaultResult
deriving DecidableEq

/-- The `text || content || snippet || JSON.stringify(attributes)` chain
(lines 501-504). -/
def kontextHitText (h : KontextHit) : String :=
  match h.textAttr with
  | some t => t
  | none =>
    match h.contentAttr with
    | some t => t
    | none =>
      match h.snippetAttr with
      | some t => t
      | none => h.attributesJson

/-- Rendering of one Kontext hit into its text block (lines 496-517). -/
def renderKontextHit (idx : Nat) (h : KontextHit) : String :=
  let parts : List String :=
    ["[Document " ++ toString (idx + 1) ++ "]"]
    ++ (match h.fileName with | some f => ["Source: " ++ f] | none => [])
    ++ (match h.scorePct with | some p => ["Relevance: " ++ p ++ "%"] | none => [])
    ++ ["Content: " ++ kontextHitText h]
  String.intercalate "\n" parts

/-- `hits.map(...).filter(Boolean).join('\n\n')` (lines 495-519). -/
def renderKontextHits (hits : List KontextHit) : String :=
  String.intercalate "\n\n"
    ((hits.mapIdx renderKontextHit).filter (fun s => s ≠ ""))

/-- The `try` body of `fetchKontextContext` (lines 441-530). -/
def fetchKontextTry (env : KontextEnv) : Except Unit String :=
  if env.apiKey = "" then .ok ""
  else
    match env.query with
    | .fail => .error ()
    | .ok vaultResult =>
      let context :=
        match vaultResult.answerText with
        | some a => "AI Answer: " ++ a ++ "\n\n"
        | none => ""
      let context :=
        match vaultResult.hits with
        | some hits =>
          if hits.length > 0 then context ++ renderKontextHits hits else context
        | none => context
      .ok context

/-- `fetchKontextContext` (lines 440-551): the `catch` converts any thrown
error into `''`. -/
def fetchKontextContext (env : KontextEnv) : String :=
  match fetchKontextTry env with
  | .ok s => s
  | .error _ => ""

/-- `fetchContext` (lines 556-566): dispatch on `USE_KONTEXT === 'true'`. -/
def fetchContext (useKontext : Bool) (wenv : WeaviateEnv) (kenv : KontextEnv) :
    String :=
  if useKontext then fetchKontextContext kenv
  else fetchWeaviateContext wenv

/-- The dispatched `try` body of `fetchContext`: `.error` marks a thrown
exception that the selected binding's `catch` will receive. -/
def fetchContextTry (useKontext : Bool) (wenv : WeaviateEnv) (kenv : KontextEnv) :
    Except Unit String :=
  if useKontext then fetchKontextTry kenv
  else fetchWeaviateTry wenv

/-! ### Whisper transcription (lines 172-224)

`transcribeAudioWithWhisper` posts the audio file as a multipart form;
the axios outcome is the oracle `post`, whose `ok` value carries
`response.data.text` projected through JS truthiness (`none` for an
absent, `null` or empty field).  `transcribeAudioFromBase64WithWhisper`
materializes the bytes to a temp file, delegates to the file-based
variant inside `try { ... } finally { unlink().catch(() => {}) }`, and
wraps any error.  The temp-file filesystem is one boolean (`Fs`): whether
the file exists.  `jsWriteFile` creates it on success; `jsUnlink` removes
it when present and rejects with `ENOENT` when absent. -/

/-- Outcome oracle of the axios transcription post. -/
structure WhisperHttp where
  post : NetResult (Option String)
deriving DecidableEq

/-- `transcribeAudioWithWhisper` (lines 172-203): `response.data.text || ''`
on success; a wrapping error rethrown from the `catch` on failure. -/
def transcribeAudioWithWhisper (env : WhisperHttp) : Except String String :=
  match env.post with
  | .ok textField => .ok (textField.getD "")
  | .fail => .error "Failed to transcribe audio: request failed"

/-- Whether the temporary audio file exists on disk. -/
abbrev Fs := Bool

/-- `fs.promises.writeFile(tempFilePath, audioBuffer)`: on success the
temp file exists; on a thrown write error it was not created. -/
def jsWriteFile (ok : Bool) (fs : Fs) : Except String Unit × Fs :=
  if ok then (.ok (), true) else (.error "write failed", fs)

/-- `fs.promises.unlink(tempFilePath)`: removes the file when present,
rejects with `ENOENT` when absent. -/
def jsUnlink (fs : Fs) : Except String Unit × Fs :=
  if fs then (.ok (), false) else (.error "ENOENT", fs)

/-- `p.catch(() => {})`: discards a rejection, keeping the fs effect. -/
def catchSwallow (r : Except String Unit × Fs) : Fs := r.2

/-- Environment of `transcribeAudioFromBase64WithWhisper`: whether the
temp-file write resolves, and the oracle of the delegated file-based
transcription. -/
structure Base64TranscribeEnv where
  writeOk : Bool
  http : WhisperHttp
deriving DecidableEq

/-- `transcribeAudioFromBase64WithWhisper` (lines 205-224), returning the
call's result together with whether the temp file still exists after the
call returns.  Structure: outer `try/catch` wrapping, inner `try`
(transcribe) / `finally` (unlink with swallowed rejection). -/
def transcribeAudioFromBase64WithWhisper (env : Base64TranscribeEnv) :
    Except String String × Fs :=
  let fs0 : Fs := false
  match jsWriteFile env.writeOk fs0 with
  | (.error e, fs1) => (.error ("Failed to transcribe audio: " ++ e), fs1)
  | (.ok _, fs1) =>
    let result := transcribeAudioWithWhisper env.http
    let fs2 := catchSwallow (jsUnlink fs1)
    match result with
    | .ok r => (.ok r, fs2)
    | .error e => (.error ("Failed to transcribe audio: " ++ e), fs2)

/-! ### Concrete instances used in closed evaluations -/

/-- The emitted delta `"Hi"`. -/
def hiStr : JSStr := 'H' :: 'i' :: []

/-- A network oracle for Ollama auto-detection in which the tag fetches
return no models (so `initializeOllamaModel` leaves the state unchanged). -/
def env0 : OllamaEnv := { tags := [], tags2 := [], helloOk := fun _ => false }

/-- The state produced by `new LLMHelper(undefined, true, "llama3.2")`. -/
def ollamaStart : HelperState :=
  { hasModel := false, useOllama := true, useOpenAI := false,
    ollamaModel := "llama3.2", ollamaUrl := "http://localhost:11434",
    openaiApiKey := "", openaiModel := "gpt-4o" }

/-- `ollamaStart` after `switchToOpenAI("sk-test")`. -/
def afterOpenAISwitch : HelperState :=
  { hasModel := false, useOllama := false, useOpenAI := true,
    ollamaModel := "llama3.2", ollamaUrl := "http://localhost:11434",
    openaiApiKey := "sk-test", openaiModel := "gpt-4o" }

/-- `afterOpenAISwitch` after switching back with
`switchToOllama("llama3.2")` (the original construction parameters):
both mode flags are now set. -/
def afterOllamaReturn : HelperState :=
  { hasModel := false, useOllama := true, useOpenAI := true,
    ollamaModel := "llama3.2", ollamaUrl := "http://localhost:11434",
    openaiApiKey := "sk-test", openaiModel := "gpt-4o" }

/-- The state produced by `new LLMHelper("gkey")` (Gemini mode). -/
def geminiStart : HelperState :=
  { hasModel := true, useOllama := false, useOpenAI := false,
    ollamaModel := "llama3.2", ollamaUrl := "http://localhost:11434",
    openaiApiKey := "", openaiModel := "gpt-4o" }

/-- `geminiStart` after `switchToOllama("llama3.2")`: the Ollama provider
is active and a Gemini model handle is still installed. -/
def ollamaWithHandle : HelperState :=
  { hasModel := true, useOllama := true, useOpenAI := false,
    ollamaModel := "llama3.2", ollamaUrl := "http://localhost:11434",
    openaiApiKey := "", openaiModel := "gpt-4o" }

/-- The body of the C1 counterexample: a `data: [DONE]` line followed by a
further data line carrying `payloadHi`. -/
def c1Body : JSStr := "data: [DONE]\ndata: ".toList ++ payloadHi

/-- The same body truncated right after the `[DONE]` sentinel line. -/
def c1BodyUpToDone : JSStr := "data: [DONE]".toList

/-- The body of the C2 counterexample: the single line `xdata: <payload>`,
which carries no `data: `-prefixed line (hence no JSON frame) at all. -/
def c2Body : JSStr := "xdata: ".toList ++ payloadHi

/-- First read of the split delivery of `c2Body`. -/
def c2Chunk1 : JSStr := "x".toList

/-- Second read of the split delivery of `c2Body`. -/
def c2Chunk2 : JSStr := "data: ".toList ++ payloadHi

/-- A sample JSON payload text `{"a":1}`. -/
def jSample : JSStr := "\x7b\"a\":1\x7d".toList

/-- A sample fence-free response text. -/
def sSample : JSStr := "  hello world\n".toList

/-- Reads of a response body whose boundaries are all adjacent to line
breaks: a complete data frame plus newline, then the sentinel. -/
def c2AlignedChunks : List JSStr :=
  ["data: ".toList ++ payloadHi ++ ('\n' :: []), "data: [DONE]".toList]

/-- A Kontext environment with a configured key whose vault query throws. -/
def kenvFail : KontextEnv := { apiKey := "k", query := .fail }

/-- A Kontext environment with no API key configured. -/
def kenvBare : KontextEnv := { apiKey := "", query := .ok ⟨none, none⟩ }

/-- A Weaviate environment with no credentials configured. -/
def wenvBare : WeaviateEnv := { url := "", key := "", post := .ok none }

/-- A Weaviate environment with credentials whose GraphQL post throws. -/
def wenvFail : WeaviateEnv := { url := "http://w", key := "wk", post := .fail }

/-! ## Helper lemmas -/

theorem splitOnNl_ne_nil (s : JSStr) : splitOnNl s ≠ [] := by
  induction s with
  | nil => simp [splitOnNl]
  | cons c cs ih =>
    simp only [splitOnNl]
    split
    · simp
    · split <;> simp_all

theorem splitOnNl_append_nl (s t : JSStr) :
    splitOnNl (s ++ '\n' :: t) = splitOnNl s ++ splitOnNl t := by
  induction s with
  | nil => simp [splitOnNl]
  | cons c cs ih =>
    by_cases hc : c = '\n'
    · subst hc
      simp [splitOnNl, ih]
    · rcases hsp : splitOnNl cs with _ | ⟨l, ls⟩
      · exact absurd hsp (splitOnNl_ne_nil cs)
      · simp [splitOnNl, hc, ih, hsp]

theorem endsWithNl_ex (s : JSStr) (h : endsWithNl s = true) : ∃ t, s = t ++ ['\n'] := by
  induction s with
  | nil => simp [endsWithNl] at h
  | cons c cs ih =>
    cases cs with
    | nil =>
      have hc : c = '\n' := by simpa [endsWithNl] using h
      exact ⟨[], by simp [hc]⟩
    | cons c' cs' =>
      obtain ⟨t, ht⟩ := ih (by simpa [endsWithNl] using h)
      exact ⟨c :: t, by simp [ht]⟩

theorem startsWithNl_append (c' r : JSStr) (h : startsWithNl c' = true) :
    startsWithNl (c' ++ r) = true := by
  cases c' with
  | nil => simp [startsWithNl] at h
  | cons x xs => simpa [startsWithNl] using h

theorem chunkLinesJS_append (c c' : JSStr)
    (h : (endsWithNl c || startsWithNl c') = true) :
    chunkLinesJS (c ++ c') = chunkLinesJS c ++ chunkLinesJS c' := by
  rcases Bool.or_eq_true_iff.mp h with h1 | h2
  · obtain ⟨t, ht⟩ := endsWithNl_ex c h1
    subst ht
    have hassoc : t ++ ['\n'] ++ c' = t ++ '\n' :: c' := by simp
    rw [hassoc]
    show (splitOnNl (t ++ '\n' :: c')).filter _ = _
    rw [splitOnNl_append_nl]
    have hc : splitOnNl (t ++ ['\n']) = splitOnNl t ++ [[]] := by
      have : t ++ ['\n'] = t ++ '\n' :: ([] : JSStr) := rfl
      rw [this, splitOnNl_append_nl]
      rfl
    unfold chunkLinesJS
    rw [hc, List.filter_append, List.filter_append]
    simp [isBlankLine]
  · cases c' with
    | nil => simp [startsWithNl] at h2
    | cons x xs =>
      have hx : x = '\n' := by simpa [startsWithNl] using h2
      subst hx
      unfold chunkLinesJS
      rw [splitOnNl_append_nl]
      have : splitOnNl ('\n' :: xs) = [] :: splitOnNl xs := by simp [splitOnNl]
      rw [this, List.filter_append]
      simp [isBlankLine]

theorem chunkLines_flatten_aligned (chunks : List JSStr)
    (h : alignedChunks chunks = true) :
    chunkLinesJS chunks.flatten = (chunks.map chunkLinesJS).flatten := by
  induction chunks with
  | nil => simp [chunkLinesJS, splitOnNl, isBlankLine]
  | cons c cs ih =>
    cases cs with
    | nil => simp
    | cons c' cs' =>
      have h1 : (endsWithNl c || startsWithNl c') = true :=
        (Bool.and_eq_true_iff.mp h).1
      have h2 : alignedChunks (c' :: cs') = true :=
        (Bool.and_eq_true_iff.mp h).2
      have hcond : (endsWithNl c || startsWithNl (List.flatten (c' :: cs'))) = true := by
        rcases Bool.or_eq_true_iff.mp h1 with ha | hb
        · simp [ha]
        · have : startsWithNl (c' ++ List.flatten cs') = true :=
            startsWithNl_append c' _ hb
          simp only [List.flatten_cons]
          simp [this]
      calc chunkLinesJS (List.flatten (c :: c' :: cs'))
          = chunkLinesJS (c ++ List.flatten (c' :: cs')) := by simp
        _ = chunkLinesJS c ++ chunkLinesJS (List.flatten (c' :: cs')) :=
            chunkLinesJS_append _ _ hcond
        _ = chunkLinesJS c ++ (List.map chunkLinesJS (c' :: cs')).flatten := by
            rw [ih h2]
        _ = (List.map chunkLinesJS (c :: c' :: cs')).flatten := by simp

theorem foldl_procChunk_eq (parse : JSStr → Option JSStr) (chunks : List JSStr)
    (init : List JSStr) :
    chunks.foldl (procChunk parse) init =
      ((chunks.map chunkLinesJS).flatten).foldl (procLine parse) init := by
  induction chunks generalizing init with
  | nil => rfl
  | cons c cs ih =>
    simp only [List.foldl_cons, List.map_cons, List.flatten_cons, List.foldl_append]
    rw [ih]
    rfl

theorem procChunk_done (parse : JSStr → Option JSStr) (out : List JSStr) :
    procChunk parse out (dataPfx ++ doneTok) = out := rfl

theorem strStarts_append_self (p r : JSStr) : strStarts p (p ++ r) = true := by
  induction p with
  | nil => rfl
  | cons c cs ih => simp [strStarts, ih]

theorem strStarts_ex (p : JSStr) : ∀ s : JSStr, strStarts p s = true → ∃ r, s = p ++ r := by
  induction p with
  | nil => exact fun s _ => ⟨s, rfl⟩
  | cons c cs ih =>
    intro s h
    cases s with
    | nil => simp [strStarts] at h
    | cons x xs =>
      have hcx : c = x ∧ strStarts cs xs = true := by
        simpa [strStarts] using h
      obtain ⟨r, hr⟩ := ih xs hcx.2
      exact ⟨r, by simp [hcx.1, hr]⟩

theorem strStarts_of_append_left (a b : JSStr) :
    ∀ s : JSStr, strStarts (a ++ b) s = true → strStarts a s = true := by
  induction a with
  | nil => intro s _; rfl
  | cons c cs ih =>
    intro s h
    cases s with
    | nil => simp [strStarts] at h
    | cons x xs =>
      have hcx : c = x ∧ strStarts (cs ++ b) xs = true := by
        simpa [strStarts] using h
      simp [strStarts, hcx.1, ih xs hcx.2]

theorem containsSeq_of_starts (p s : JSStr) (h : strStarts p s = true) :
    containsSeq p s = true := by
  cases s with
  | nil => exact h
  | cons c cs => simp [containsSeq, h]

theorem containsSeq_append_left (p t : JSStr) (h : containsSeq p t = true) :
    ∀ r : JSStr, containsSeq p (r ++ t) = true := by
  intro r
  induction r with
  | nil => exact h
  | cons c cs ih => simp [containsSeq, ih]

theorem strEnds_ex (suf s : JSStr) (h : strEnds suf s = true) : ∃ r, s = r ++ suf := by
  obtain ⟨t, ht⟩ := strStarts_ex suf.reverse s.reverse h
  refine ⟨t.reverse, ?_⟩
  have := congrArg List.reverse ht
  simpa using this

theorem clean_fenceWrap (fj : Bool) (j : JSStr) :
    cleanJsonResponse (fenceWrap fj j) = trimJS j := by
  have hEnds : strEnds fenceSuf (j ++ fenceSuf) = true := by
    unfold strEnds
    rw [List.reverse_append]
    exact strStarts_append_self _ _
  have hTake : (j ++ fenceSuf).take ((j ++ fenceSuf).length - fenceSuf.length) = j := by
    rw [List.length_append, Nat.add_sub_cancel, List.take_left]
  cases fj with
  | true =>
    have hassoc : fenceWrap true j = fenceJsonPfx ++ (j ++ fenceSuf) := by
      unfold fenceWrap
      simp
    have h1 : strStarts fenceJsonPfx (fenceJsonPfx ++ (j ++ fenceSuf)) = true :=
      strStarts_append_self _ _
    rw [hassoc]
    simp [cleanJsonResponse, h1, hEnds, hTake, List.drop_left]
  | false =>
    have hassoc : fenceWrap false j = fencePfx ++ (j ++ fenceSuf) := by
      unfold fenceWrap
      simp
    have h0 : strStarts fenceJsonPfx (fencePfx ++ (j ++ fenceSuf)) = false := rfl
    have h1 : strStarts fencePfx (fencePfx ++ (j ++ fenceSuf)) = true :=
      strStarts_append_self _ _
    rw [hassoc]
    simp [cleanJsonResponse, h0, h1, hEnds, hTake, List.drop_left]

theorem clean_noFence (s : JSStr) (hs : hasFence s = false) :
    cleanJsonResponse s = trimJS s := by
  have h1 : strStarts fenceJsonPfx s = false := by
    cases hx : strStarts fenceJsonPfx s
    · rfl
    · exfalso
      have hstart : strStarts fence3 s = true :=
        strStarts_of_append_left fence3 ('j' :: 's' :: 'o' :: 'n' :: '\n' :: []) s hx
      have : hasFence s = true := containsSeq_of_starts _ _ hstart
      rw [hs] at this
      exact Bool.false_ne_true this
  have h2 : strStarts fencePfx s = false := by
    cases hx : strStarts fencePfx s
    · rfl
    · exfalso
      have hstart : strStarts fence3 s = true :=
        strStarts_of_append_left fence3 ('\n' :: []) s hx
      have : hasFence s = true := containsSeq_of_starts _ _ hstart
      rw [hs] at this
      exact Bool.false_ne_true this
  have h3 : strEnds fenceSuf s = false := by
    cases hx : strEnds fenceSuf s
    · rfl
    · exfalso
      obtain ⟨r, hr⟩ := strEnds_ex fenceSuf s hx
      have hsub : containsSeq fence3 fenceSuf = true := rfl
      have : hasFence s = true := by
        rw [hr]
        exact containsSeq_append_left fence3 fenceSuf hsub r
      rw [hs] at this
      exact Bool.false_ne_true this
  simp [cleanJsonResponse, h1, h2, h3]

/-! ## Claim theorems -/

/-- C1, counterexample: decoding does NOT stop at the `data: [DONE]` line.
The body `"data: [DONE]\ndata: <frame>"`, delivered in one read, emits the
delta `"Hi"` (so the data line after the sentinel contributed text to
`fullContent` and fired the chunk callback), while the body truncated at
the sentinel emits nothing — refuting the claim that once `data: [DONE]`
is consumed no later `data:` line contributes. -/
theorem c1_counterexample :
    callOpenAIDecode jsonContent0 [c1Body] = [hiStr] ∧
    callOpenAIDecode jsonContent0 [c1BodyUpToDone] = [] ∧
    callOpenAIFull jsonContent0 [c1Body] = hiStr := by
  refine ⟨by decide, by decide, by decide⟩

/-- C1, amended claim: a `data: [DONE]` line contributes no text and fires
no callback, but decoding is not terminated by it: a read consisting of the
sentinel line can be inserted anywhere in the read sequence without
changing the emitted deltas, and the reads after it are decoded normally
(the source's `continue` skips only the sentinel line itself). -/
theorem c1_done_skipped_not_terminal (parse : JSStr → Option JSStr)
    (cs1 cs2 : List JSStr) :
    callOpenAIDecode parse (cs1 ++ (dataPfx ++ doneTok) :: cs2) =
      callOpenAIDecode parse (cs1 ++ cs2) := by
  unfold callOpenAIDecode
  rw [List.foldl_append, List.foldl_cons, procChunk_done, List.foldl_append]

/-- C2, counterexample: the body `"xdata: <frame>"` contains no line
prefixed `data: ` at all — hence no JSON frame, and in particular no JSON
frame split across a read boundary — yet delivering it as the two reads
`"x"` and `"data: <frame>"` emits `"Hi"` while the single-read delivery of
the same body emits nothing: a mid-line split of a non-frame line changes
the accumulated text, refuting the claimed boundary-invariance. -/
theorem c2_counterexample :
    c2Chunk1 ++ c2Chunk2 = c2Body ∧
    (splitOnNl c2Body).all (fun l => !(strStarts dataPfx l)) = true ∧
    callOpenAIDecode jsonContent0 [c2Body] = [] ∧
    callOpenAIDecode jsonContent0 [c2Chunk1, c2Chunk2] = [hiStr] := by
  refine ⟨by decide, by decide, by decide, by decide⟩

/-- C2, amended claim: when every read boundary is adjacent to a line
break (so no line of the body — in particular no JSON frame — is split
across a boundary), decoding the body delivered across those reads emits
exactly the same deltas, and hence the same accumulated text, as decoding
the whole body in a single read. -/
theorem c2_aligned_refinement (parse : JSStr → Option JSStr)
    (chunks : List JSStr) (h : alignedChunks chunks = true) :
    callOpenAIDecode parse chunks = callOpenAIDecode parse [chunks.flatten] := by
  show chunks.foldl (procChunk parse) [] = [chunks.flatten].foldl (procChunk parse) []
  rw [foldl_procChunk_eq]
  simp only [List.foldl_cons, List.foldl_nil]
  show _ = (chunkLinesJS chunks.flatten).foldl (procLine parse) []
  rw [chunkLines_flatten_aligned chunks h]

/-- Witness for the amended C2 claim at a concrete aligned read split. -/
theorem c2_aligned_refinement_witness :
    callOpenAIDecode jsonContent0 c2AlignedChunks =
      callOpenAIDecode jsonContent0 [c2AlignedChunks.flatten] :=
  c2_aligned_refinement jsonContent0 c2AlignedChunks (by decide)

/-- C3, evaluation at the failing input: construct in Ollama mode, switch
to OpenAI, then switch back to Ollama.  `switchToOllama` never clears
`useOpenAI` (unlike `switchToGemini` and `switchToOpenAI`, which clear the
other flags), so afterwards BOTH mode flags are set and
`getCurrentProvider` reports `"openai"` although the most recent switch
selected Ollama — the claimed invariant fails on the code. -/
theorem c3_both_flags_set :
    construct env0 "" true "llama3.2" "" false "" = .ok ollamaStart ∧
    applyOp ollamaStart (.toOpenAI "sk-test" "") = afterOpenAISwitch ∧
    applyOp afterOpenAISwitch (.toOllama "llama3.2" "" env0) = afterOllamaReturn ∧
    afterOllamaReturn.useOpenAI = true ∧
    afterOllamaReturn.useOllama = true ∧
    getCurrentProvider afterOllamaReturn = "openai" :=
  ⟨rfl, rfl, rfl, rfl, rfl, rfl⟩

/-- C4, evaluation at the failing input: starting from the Ollama provider
(model `llama3.2`), switching to OpenAI and then back to Ollama with the
original parameters does NOT restore the original provider:
`getCurrentProvider`/`getCurrentModel` report `"openai"`/`"gpt-4o"` after
the round trip instead of the original `"ollama"`/`"llama3.2"`, because
`switchToOllama` leaves `useOpenAI` set. -/
theorem c4_roundtrip_not_restored :
    getCurrentProvider ollamaStart = "ollama" ∧
    getCurrentModel ollamaStart = "llama3.2" ∧
    applyOp ollamaStart (.toOpenAI "sk-test" "") = afterOpenAISwitch ∧
    applyOp afterOpenAISwitch (.toOllama "llama3.2" "" env0) = afterOllamaReturn ∧
    getCurrentProvider afterOllamaReturn = "openai" ∧
    getCurrentModel afterOllamaReturn = "gpt-4o" :=
  ⟨rfl, rfl, rfl, rfl, rfl, rfl⟩

/-- C5, counterexample: with the Ollama provider active (reachable by
constructing in Gemini mode and switching to Ollama), `analyzeImageFile`
does not fail at all, let alone with a typed unsupported-operation error:
it dispatches to the ordinary Gemini `generateContent` branch.  (The
source contains no unsupported-operation failure on any path of
`analyzeImageFile`, as the exit type `ImageCall` records.) -/
theorem c5_counterexample :
    construct env0 "gkey" false "" "" false "" = .ok geminiStart ∧
    applyOp geminiStart (.toOllama "llama3.2" "" env0) = ollamaWithHandle ∧
    getCurrentProvider ollamaWithHandle = "ollama" ∧
    analyzeImageFile ollamaWithHandle = ImageCall.geminiVision :=
  ⟨rfl, rfl, rfl, rfl⟩

/-- C5, amended claim: whenever the Ollama provider is active,
`analyzeImageFile` never produces a typed unsupported-operation failure; it
takes the Gemini branch — an ordinary Gemini vision call when a model
handle exists, and an untyped null-model dereference error when none
does. -/
theorem c5_ollama_dispatches_gemini (st : HelperState)
    (h : getCurrentProvider st = "ollama") :
    analyzeImageFile st =
      (if st.hasModel then ImageCall.geminiVision else ImageCall.nullModelError) := by
  have hopen : st.useOpenAI = false := by
    cases hx : st.useOpenAI
    · rfl
    · exfalso
      unfold getCurrentProvider at h
      rw [hx, if_pos rfl] at h
      exact absurd h (by decide)
  simp [analyzeImageFile, hopen]

/-- Witness for the amended C5 claim at the Ollama-constructed state. -/
theorem c5_ollama_dispatches_gemini_witness :
    analyzeImageFile ollamaStart =
      (if ollamaStart.hasModel then ImageCall.geminiVision
       else ImageCall.nullModelError) :=
  c5_ollama_dispatches_gemini ollamaStart rfl

/-- C6: for any notion `jsonOk` of "parses successfully as JSON" that is
insensitive to surrounding whitespace (as `JSON.parse` is), cleaning a
well-formed JSON text wrapped in a markdown code fence (with or without
the `json` language tag) yields exactly the trimmed payload — hence a
string that still parses — and cleaning any input containing no code fence
returns exactly the trimmed input. -/
theorem c6_clean_json (jsonOk : JSStr → Bool)
    (hws : ∀ t, jsonOk (trimJS t) = jsonOk t)
    (fj : Bool) (j : JSStr) (hj : jsonOk j = true)
    (s : JSStr) (hs : hasFence s = false) :
    cleanJsonResponse (fenceWrap fj j) = trimJS j ∧
    jsonOk (cleanJsonResponse (fenceWrap fj j)) = true ∧
    cleanJsonResponse s = trimJS s := by
  refine ⟨clean_fenceWrap fj j, ?_, clean_noFence s hs⟩
  rw [clean_fenceWrap fj j, hws j, hj]

/-- Witness for C6 at a concrete fenced payload and a concrete fence-free
input. -/
theorem c6_clean_json_witness :
    cleanJsonResponse (fenceWrap true jSample) = trimJS jSample ∧
    (fun _ : JSStr => true) (cleanJsonResponse (fenceWrap true jSample)) = true ∧
    cleanJsonResponse sSample = trimJS sSample :=
  c6_clean_json (fun _ => true) (fun _ => rfl) true jSample rfl sSample (by decide)

/-- C7: context retrieval never aborts the caller.  Any exception thrown
inside the dispatched binding's `try` body is converted by its `catch`
into the empty result; a missing API key (Kontext) or missing
URL/key (Weaviate) yields the empty result without any network call; and
a thrown transport/parsing failure of either backend yields the empty
result. -/
theorem c7_fetch_context_total (uk : Bool) (wenv : WeaviateEnv) (kenv : KontextEnv) :
    (fetchContextTry uk wenv kenv = .error () → fetchContext uk wenv kenv = "") ∧
    (kenv.apiKey = "" → fetchContext true wenv kenv = "") ∧
    (kenv.query = .fail → fetchContext true wenv kenv = "") ∧
    ((wenv.url = "" ∨ wenv.key = "") → fetchContext false wenv kenv = "") ∧
    (wenv.post = .fail → fetchContext false wenv kenv = "") := by
  refine ⟨?_, ?_, ?_, ?_, ?_⟩
  · intro h
    cases uk with
    | true =>
      show fetchKontextContext kenv = ""
      unfold fetchKontextContext
      rw [show fetchKontextTry kenv = .error () from h]
    | false =>
      show fetchWeaviateContext wenv = ""
      unfold fetchWeaviateContext
      rw [show fetchWeaviateTry wenv = .error () from h]
  · intro hk
    show fetchKontextContext kenv = ""
    unfold fetchKontextContext fetchKontextTry
    rw [if_pos hk]
  · intro hq
    show fetchKontextContext kenv = ""
    unfold fetchKontextContext fetchKontextTry
    rw [hq]
    by_cases hk : kenv.apiKey = ""
    · rw [if_pos hk]
    · rw [if_neg hk]
  · intro hw
    show fetchWeaviateContext wenv = ""
    unfold fetchWeaviateContext fetchWeaviateTry
    rw [if_pos hw]
  · intro hp
    show fetchWeaviateContext wenv = ""
    unfold fetchWeaviateContext fetchWeaviateTry
    rw [hp]
    by_cases hcred : wenv.url = "" ∨ wenv.key = ""
    · rw [if_pos hcred]
    · rw [if_neg hcred]

/-- Witness for C7: the four degraded situations at concrete
environments all produce the empty context. -/
theorem c7_fetch_context_total_witness :
    fetchContext true wenvBare kenvFail = "" ∧
    fetchContext true wenvBare kenvBare = "" ∧
    fetchContext false wenvFail kenvBare = "" ∧
    fetchContext false wenvBare kenvBare = "" :=
  ⟨(c7_fetch_context_total true wenvBare kenvFail).2.2.1 rfl,
   (c7_fetch_context_total true wenvBare kenvBare).2.1 rfl,
   (c7_fetch_context_total false wenvFail kenvBare).2.2.2.2 rfl,
   (c7_fetch_context_total false wenvBare kenvBare).2.2.2.1 (Or.inl rfl)⟩

/-- C8: after `transcribeAudioFromBase64WithWhisper` returns, the
temporary audio file no longer exists, on every exit path: when the write
fails the file was never created, and otherwise the `finally` clause
unlinks it both when the transcription succeeds and when it fails. -/
theorem c8_temp_file_deleted (env : Base64TranscribeEnv) :
    (transcribeAudioFromBase64WithWhisper env).2 = false := by
  obtain ⟨w, ⟨p⟩⟩ := env
  cases w <;> cases p <;> rfl

/-- C9: `switchToOpenAI` performs no key validation: for every key —
including the empty string — it succeeds, installs the OpenAI provider and
stores the key verbatim, even though construction with `useOpenAI` and an
absent key throws; so after `switchToOpenAI("")` the instance is in an
OpenAI state that construction would have rejected. -/
theorem c9_switch_openai_unvalidated (st : HelperState) (key model : String)
    (env : OllamaEnv) (uo : Bool) (om ou omod : String) :
    (switchToOpenAI st key model).useOpenAI = true ∧
    (switchToOpenAI st key model).useOllama = false ∧
    (switchToOpenAI st key model).openaiApiKey = key ∧
    getCurrentProvider (switchToOpenAI st key model) = "openai" ∧
    construct env "" uo om ou true omod =
      .error "OpenAI API key is required when useOpenAI is true" :=
  ⟨rfl, rfl, rfl, rfl, rfl⟩

/-- C10: when the transcription post resolves successfully but the
response body carries no `text` field, `transcribeAudioWithWhisper`
returns the empty string (via `response.data.text || ''`) rather than
raising. -/
theorem c10_missing_text_yields_empty :
    transcribeAudioWithWhisper { post := .ok none } = .ok "" := rfl

end FreeCluely
